import Mathlib

/-!
Shallow embedding of the Weatherly single-page widget (src/src/App.js):
a debounced city-name autosuggest (SuggestionEngine) driving a weather
fetch (WeatherQuery).  React state hooks become record fields, the
debounce timer becomes an explicit set of armed timers with a single-slot
handle (`debounceRef`), and the two network calls become effects recorded
in a trace, with their outcomes supplied as event parameters.
-/

namespace Weatherly

/-- JavaScript `String.prototype.trim()`: strip leading and trailing
whitespace.  Defined over the character list so it evaluates in the
kernel. -/
def jsTrim (s : String) : String :=
  ⟨((s.data.dropWhile Char.isWhitespace).reverse.dropWhile Char.isWhitespace).reverse⟩

/-- Opaque structured payload returned by the weather collaborator
(`json` in `fetchWeather`); the widget only stores and displays it. -/
structure WeatherResult where
  payload : String
deriving DecidableEq

/-- A suggestion produced by the geocoding lookup (`label`/`value`
objects built at App.js lines 56-59). -/
structure Suggestion where
  label : String
  value : String
deriving DecidableEq

/-- A raw geocoding entry `{name, state?, country?}`.  JS tests the
optional fields with truthiness (`it.state ? ... : ...`), under which an
absent field and an empty string behave identically, so absence is
modelled as the empty string. -/
structure GeoEntry where
  name : String
  state : String
  country : String
deriving DecidableEq

/-- The mapping from a raw geocoding entry to a `Suggestion`
(App.js lines 56-59). -/
def toSuggestion (it : GeoEntry) : Suggestion :=
  { label := it.name ++ (if it.state = "" then "" else ", " ++ it.state)
      ++ (if it.country = "" then "" else ", " ++ it.country)
  , value := it.name ++ (if it.country = "" then "" else "," ++ it.country) }

/-- A request to the geocoding collaborator (`API_GEOCODE?q=...&limit=6`,
App.js line 52). -/
structure GeoRequest where
  q : String
  limit : Nat
deriving DecidableEq

/-- A request to the weather collaborator
(`API_WEATHER?q=...&units=metric`, App.js line 28). -/
structure WeatherRequest where
  q : String
  units : String
deriving DecidableEq

/-- One primitive effect performed by an event handler: a React state
setter, or an outgoing network call. -/
inductive Eff where
  | setError (msg : String)
  | setData (d : Option WeatherResult)
  | setLoading (b : Bool)
  | weatherCall (r : WeatherRequest)
  | geoCall (r : GeoRequest)
deriving DecidableEq

/-- Outcome of the weather fetch, as observed by `fetchWeather`'s
try/catch: parsed payload, non-ok HTTP response, or transport error. -/
inductive FetchOutcome where
  | ok (result : WeatherResult)
  | httpError (status : Nat) (statusText : String)
  | netError (message : String)
deriving DecidableEq

/-- Outcome of a geocoding fetch: parsed entry list, or anything that
lands in the `catch` (transport error or non-ok status, both thrown at
App.js line 54). -/
inductive GeoOutcome where
  | ok (entries : List GeoEntry)
  | fail
deriving DecidableEq

/-- Embedding of `fetchWeather` (App.js lines 21-38) as the trace of effects of one
invocation.  `q` is the explicit argument (`none` when called as
`fetchWeather()`), `city` the captured state, `oc` the network outcome.
Order is faithful: clear error, clear data, key check, set loading,
fetch, record result, clear loading in `finally`. -/
def fetchWeather (apiKey : Option String) (q : Option String) (city : String)
    (oc : FetchOutcome) : List Eff :=
  [Eff.setError "", Eff.setData none] ++
  match apiKey with
  | none => [Eff.setError "Missing API key"]
  | some _ =>
    let t := jsTrim (q.getD city)
    let query := if t = "" then "Algiers" else t
    [Eff.setLoading true, Eff.weatherCall ⟨query, "metric"⟩] ++
    (match oc with
     | FetchOutcome.ok res => [Eff.setData (some res)]
     | FetchOutcome.httpError st stTxt =>
         [Eff.setError ("Error " ++ toString st ++ ": " ++ stTxt)]
     | FetchOutcome.netError m =>
         [Eff.setError (if m = "" then "Request failed" else m)]) ++
    [Eff.setLoading false]

/-- The WeatherQuery part of the component state: the `data`, `error`
and `loading` hooks (App.js lines 10-12). -/
structure WState where
  data : Option WeatherResult
  error : String
  loading : Bool
deriving DecidableEq

/-- Apply one state-setter effect to the weather state; network-call
effects do not change state. -/
def applyEff (s : WState) : Eff → WState
  | Eff.setError m => { s with error := m }
  | Eff.setData d => { s with data := d }
  | Eff.setLoading b => { s with loading := b }
  | Eff.weatherCall _ => s
  | Eff.geoCall _ => s

/-- Apply a trace of effects in order. -/
def applyEffs (s : WState) (effs : List Eff) : WState := effs.foldl applyEff s

/-- The spec's `RequestStatus`, derived from the three hooks the code
actually keeps. -/
inductive RequestStatus where
  | idle
  | loading
  | ready (r : WeatherResult)
  | failed (msg : String)
deriving DecidableEq

/-- Derived status: `Loading` while in flight, `Failed` when an error
message is displayed, `Ready` when a result card is shown, else idle. -/
def status (s : WState) : RequestStatus :=
  if s.loading then RequestStatus.loading
  else if s.error ≠ "" then RequestStatus.failed s.error
  else match s.data with
    | some r => RequestStatus.ready r
    | none => RequestStatus.idle

/-- An armed debounce timer: its `setTimeout` id and the query captured
by the scheduled closure. -/
structure Timer where
  id : Nat
  q : String
deriving DecidableEq

/-- The whole component state: WeatherQuery hooks, SuggestionEngine
hooks (`suggestions`, `open`, `highlight`), and the timer system
(`timers` = armed, not-yet-fired, not-cancelled timeouts; `debounceRef`
= the single-slot handle; `nextId` = fresh-id counter).  `isOpen` embeds
the `open` hook (`open` is a Lean keyword). -/
@[ext]
structure AppState where
  apiKey : Option String
  city : String
  weather : WState
  suggestions : List Suggestion
  isOpen : Bool
  highlight : Int
  timers : List Timer
  nextId : Nat
  debounceRef : Option Nat
deriving DecidableEq

/-- Embedding of `clearTimeout(tid)`: the timer with that id can no longer fire. -/
def clearTimer (s : AppState) (tid : Nat) : AppState :=
  { s with timers := s.timers.filter (fun t => t.id ≠ tid) }

/-- Embedding of `if (debounceRef.current) clearTimeout(debounceRef.current)`
(App.js line 43): cancel the held timeout, if any. -/
def cancelHeld (s : AppState) : AppState :=
  match s.debounceRef with
  | some tid => clearTimer s tid
  | none => s

/-- Embedding of `lookup` (App.js lines 41-70), up to the point where the timeout is
armed: key guard, cancel the held timeout, short-query clear, or arm a
fresh timer capturing `q`.  The timer body itself is `fireTimer`. -/
def lookup (s : AppState) (q : String) : AppState :=
  match s.apiKey with
  | none => s
  | some _ =>
    let s₁ := cancelHeld s
    if q = "" ∨ (jsTrim q).length < 2 then
      { s₁ with suggestions := [], isOpen := false, highlight := -1 }
    else
      { s₁ with timers := s₁.timers ++ [⟨s₁.nextId, q⟩],
                debounceRef := some s₁.nextId,
                nextId := s₁.nextId + 1 }

/-- Embedding of `onChange` (App.js lines 72-76): record the keystroke then run
`lookup` on it. -/
def onChange (s : AppState) (v : String) : AppState :=
  lookup { s with city := v } v

/-- The debounce timer body (App.js lines 50-69) firing for timer `tid`:
only an armed timer can fire (a cancelled id is a no-op), it issues one
geocoding call with the captured query and `limit=6`, then populates the
suggestion state on success or clears it silently on failure. -/
def fireTimer (s : AppState) (tid : Nat) (oc : GeoOutcome) : AppState × List Eff :=
  match s.timers.find? (fun t => t.id = tid) with
  | none => (s, [])
  | some t =>
    let s₁ := clearTimer s tid
    match oc with
    | GeoOutcome.ok entries =>
      let items := entries.map toSuggestion
      ({ s₁ with suggestions := items, isOpen := decide (0 < items.length),
                 highlight := -1 },
       [Eff.geoCall ⟨t.q, 6⟩])
    | GeoOutcome.fail =>
      ({ s₁ with suggestions := [], isOpen := false, highlight := -1 },
       [Eff.geoCall ⟨t.q, 6⟩])

/-- Embedding of `pick` (App.js lines 78-84): confirm a suggestion — set the input to
its value, close the dropdown, reset the highlight, and search for it.
`fetchWeather` is called with the explicit argument `sug.value`; the
closure's captured `city` is the pre-update one. -/
def pick (s : AppState) (sug : Suggestion) (oc : FetchOutcome) : AppState × List Eff :=
  let effs := fetchWeather s.apiKey (some sug.value) s.city oc
  ({ s with city := sug.value, isOpen := false, highlight := -1,
            weather := applyEffs s.weather effs }, effs)

/-- Keyboard keys the handler distinguishes. -/
inductive Key where
  | arrowDown
  | arrowUp
  | enter
  | escape
  | other
deriving DecidableEq

/-- Embedding of `onKeyDown` (App.js lines 86-109).  Arrow keys while open move the
highlight cyclically; Enter confirms the highlighted suggestion when
`open && highlight >= 0 && suggestions[highlight]`, else searches the
raw text; Escape closes without clearing items. -/
def onKeyDown (s : AppState) (k : Key) (oc : FetchOutcome) : AppState × List Eff :=
  if s.isOpen ∧ (k = Key.arrowDown ∨ k = Key.arrowUp) then
    let mx : Int := (s.suggestions.length : Int) - 1
    let h := s.highlight
    let h' : Int :=
      if mx < 0 then -1
      else if k = Key.arrowDown then (if h ≥ mx then 0 else h + 1)
      else if k = Key.arrowUp then (if h ≤ 0 then mx else h - 1)
      else h
    ({ s with highlight := h' }, [])
  else if k = Key.enter then
    match (if s.isOpen ∧ 0 ≤ s.highlight then s.suggestions[s.highlight.toNat]? else none) with
    | some sug => pick s sug oc
    | none =>
      let effs := fetchWeather s.apiKey none s.city oc
      ({ s with weather := applyEffs s.weather effs }, effs)
  else if k = Key.escape then
    ({ s with isOpen := false, highlight := -1 }, [])
  else (s, [])

/-- Handler `onMouseEnter` on option `i` (App.js line 173): an option node
exists only while the dropdown is rendered and `i` indexes `suggestions`. -/
def mouseEnter (s : AppState) (i : Nat) : AppState :=
  if s.isOpen ∧ i < s.suggestions.length then { s with highlight := (i : Int) } else s

/-- Handler `onMouseLeave` (App.js line 174): reset the highlight. -/
def mouseLeave (s : AppState) : AppState :=
  { s with highlight := -1 }

/-- Handler `onMouseDown` on option `i` (App.js line 175): pick that suggestion;
the node exists only while the dropdown is rendered. -/
def mouseDownOption (s : AppState) (i : Nat) (oc : FetchOutcome) : AppState × List Eff :=
  match (if s.isOpen then s.suggestions[i]? else none) with
  | some sug => pick s sug oc
  | none => (s, [])

/-- The document-level mousedown listener (App.js lines 112-119): a
click outside the wrap closes the dropdown, nothing else changes. -/
def docClick (s : AppState) (inside : Bool) : AppState :=
  if inside then s else { s with isOpen := false }

/-- The Search button (App.js line 195): `fetchWeather()` with no
argument; the button is disabled while loading. -/
def buttonSearch (s : AppState) (oc : FetchOutcome) : AppState × List Eff :=
  if s.weather.loading then (s, [])
  else
    let effs := fetchWeather s.apiKey none s.city oc
    ({ s with weather := applyEffs s.weather effs }, effs)

/-- The UI events that drive the component, each carrying the outcome of
any network call it performs. -/
inductive Event where
  | input (v : String)
  | fire (tid : Nat) (oc : GeoOutcome)
  | key (k : Key) (oc : FetchOutcome)
  | hoverEnter (i : Nat)
  | hoverLeave
  | clickOption (i : Nat) (oc : FetchOutcome)
  | outside (inside : Bool)
  | searchBtn (oc : FetchOutcome)
deriving DecidableEq

/-- One event-step of the component; returns the new state and the
effects performed. -/
def step (s : AppState) : Event → AppState × List Eff
  | Event.input v => (onChange s v, [])
  | Event.fire tid oc => fireTimer s tid oc
  | Event.key k oc => onKeyDown s k oc
  | Event.hoverEnter i => (mouseEnter s i, [])
  | Event.hoverLeave => (mouseLeave s, [])
  | Event.clickOption i oc => mouseDownOption s i oc
  | Event.outside b => (docClick s b, [])
  | Event.searchBtn oc => buttonSearch s oc

/-- Run a sequence of events, concatenating the effect traces. -/
def run (s : AppState) : List Event → AppState × List Eff
  | [] => (s, [])
  | e :: es =>
    let p := step s e
    let p' := run p.1 es
    (p'.1, p.2 ++ p'.2)

/-- The initial mount state (App.js lines 9-19): city "Algiers", no
data, no error, not loading, no suggestions, dropdown closed, highlight
-1, no timer armed. -/
def init (apiKey : Option String) : AppState :=
  { apiKey := apiKey, city := "Algiers"
  , weather := { data := none, error := "", loading := false }
  , suggestions := [], isOpen := false, highlight := -1
  , timers := [], nextId := 0, debounceRef := none }

/-- A state the component can actually be in: reached from mount by some
event sequence. -/
def Reachable (apiKey : Option String) (s : AppState) : Prop :=
  ∃ es, (run (init apiKey) es).1 = s

/-- The SuggestionEngine invariant of the spec: the highlight is -1 or a
valid index, and the dropdown is open only when there are items. -/
def SuggInv (s : AppState) : Prop :=
  (s.highlight = -1 ∨ (0 ≤ s.highlight ∧ s.highlight < (s.suggestions.length : Int))) ∧
  (s.isOpen = true → s.suggestions ≠ [])

/-- Timer-system sanity: at most one armed timer, every armed timer is
the one `debounceRef` holds, and armed ids are below the fresh counter. -/
def TimerInv (s : AppState) : Prop :=
  s.timers.length ≤ 1 ∧
  (∀ t ∈ s.timers, s.debounceRef = some t.id ∧ t.id < s.nextId)

/-- With no API key, `lookup` returns before doing anything, so the
suggestion machinery never leaves its mount state. -/
def KeyNoneInv (s : AppState) : Prop :=
  s.apiKey = none →
    s.suggestions = [] ∧ s.isOpen = false ∧ s.highlight = -1 ∧ s.timers = []

/-- The conjunction of all reachability invariants. -/
def Inv (s : AppState) : Prop :=
  SuggInv s ∧ TimerInv s ∧ KeyNoneInv s

theorem timers_nil_of_ref_none {s : AppState} (hinv : TimerInv s)
    (hr : s.debounceRef = none) : s.timers = [] := by
  cases ht : s.timers with
  | nil => rfl
  | cons t ts =>
    have h1 := (hinv.2 t (by rw [ht]; exact List.mem_cons_self t ts)).1
    rw [hr] at h1
    cases h1

theorem filter_timers_nil {s : AppState} {tid : Nat} (hinv : TimerInv s)
    (hr : s.debounceRef = some tid) :
    s.timers.filter (fun t => t.id ≠ tid) = [] := by
  apply List.filter_eq_nil_iff.mpr
  intro t ht
  have h1 := (hinv.2 t ht).1
  rw [hr] at h1
  simp only [Option.some.injEq] at h1
  simp [h1]

theorem cancelHeld_apiKey (s : AppState) : (cancelHeld s).apiKey = s.apiKey := by
  unfold cancelHeld clearTimer; split <;> rfl

theorem cancelHeld_city (s : AppState) : (cancelHeld s).city = s.city := by
  unfold cancelHeld clearTimer; split <;> rfl

theorem cancelHeld_weather (s : AppState) : (cancelHeld s).weather = s.weather := by
  unfold cancelHeld clearTimer; split <;> rfl

theorem cancelHeld_suggestions (s : AppState) :
    (cancelHeld s).suggestions = s.suggestions := by
  unfold cancelHeld clearTimer; split <;> rfl

theorem cancelHeld_isOpen (s : AppState) : (cancelHeld s).isOpen = s.isOpen := by
  unfold cancelHeld clearTimer; split <;> rfl

theorem cancelHeld_highlight (s : AppState) : (cancelHeld s).highlight = s.highlight := by
  unfold cancelHeld clearTimer; split <;> rfl

theorem cancelHeld_nextId (s : AppState) : (cancelHeld s).nextId = s.nextId := by
  unfold cancelHeld clearTimer; split <;> rfl

theorem cancelHeld_debounceRef (s : AppState) :
    (cancelHeld s).debounceRef = s.debounceRef := by
  unfold cancelHeld clearTimer; split <;> rfl

/-- Under `TimerInv`, cancelling the held timeout disarms everything. -/
theorem cancelHeld_timers {s : AppState} (hinv : TimerInv s) :
    (cancelHeld s).timers = [] := by
  unfold cancelHeld
  cases hr : s.debounceRef with
  | none => exact timers_nil_of_ref_none hinv hr
  | some tid => exact filter_timers_nil hinv hr

/-- Normal form for `lookup` when the key is configured and the timer
system is sane: a short query clears the suggestion state and leaves no
armed timer; otherwise a single fresh timer capturing `q` is armed. -/
theorem lookup_eq {s : AppState} {k : String} (q : String)
    (hk : s.apiKey = some k) (hinv : TimerInv s) :
    lookup s q =
      if q = "" ∨ (jsTrim q).length < 2 then
        { s with suggestions := [], isOpen := false, highlight := -1, timers := [] }
      else
        { s with timers := [⟨s.nextId, q⟩], debounceRef := some s.nextId,
                 nextId := s.nextId + 1 } := by
  unfold lookup
  split
  · rename_i heq
    rw [heq] at hk
    cases hk
  · by_cases hc : (q = "" ∨ (jsTrim q).length < 2)
    · simp only [if_pos hc]
      ext <;>
        simp [cancelHeld_apiKey, cancelHeld_city, cancelHeld_weather,
          cancelHeld_suggestions, cancelHeld_isOpen, cancelHeld_highlight,
          cancelHeld_nextId, cancelHeld_debounceRef, cancelHeld_timers hinv]
    · simp only [if_neg hc]
      ext <;>
        simp [cancelHeld_apiKey, cancelHeld_city, cancelHeld_weather,
          cancelHeld_suggestions, cancelHeld_isOpen, cancelHeld_highlight,
          cancelHeld_nextId, cancelHeld_debounceRef, cancelHeld_timers hinv]

theorem inv_setCity {s : AppState} (h : Inv s) (v : String) :
    Inv { s with city := v } := by
  obtain ⟨⟨h1, h2⟩, ⟨h3, h4⟩, h5⟩ := h
  exact ⟨⟨h1, h2⟩, ⟨h3, h4⟩, h5⟩

theorem lookup_inv {s : AppState} (h : Inv s) (q : String) : Inv (lookup s q) := by
  cases hk : s.apiKey with
  | none =>
    have he : lookup s q = s := by unfold lookup; rw [hk]
    rw [he]; exact h
  | some k =>
    rw [lookup_eq q hk h.2.1]
    split
    · refine ⟨⟨Or.inl rfl, by simp⟩, ⟨by simp, by simp⟩, ?_⟩
      intro hnone
      simp only at hnone
      rw [hk] at hnone
      cases hnone
    · refine ⟨⟨h.1.1, h.1.2⟩, ⟨by simp, ?_⟩, ?_⟩
      · intro t ht
        simp only [List.mem_singleton] at ht
        subst ht
        exact ⟨rfl, Nat.lt_succ_self _⟩
      · intro hnone
        simp only at hnone
        rw [hk] at hnone
        cases hnone

theorem onChange_inv {s : AppState} (h : Inv s) (v : String) :
    Inv (onChange s v) :=
  lookup_inv (inv_setCity h v) v

theorem clearTimer_timerInv {s : AppState} (h : TimerInv s) (tid : Nat) :
    TimerInv (clearTimer s tid) := by
  refine ⟨Nat.le_trans (List.length_filter_le _ _) h.1, ?_⟩
  intro t ht
  exact h.2 t (List.mem_of_mem_filter ht)

theorem fireTimer_inv {s : AppState} (h : Inv s) (tid : Nat) (oc : GeoOutcome) :
    Inv (fireTimer s tid oc).1 := by
  unfold fireTimer
  cases hf : s.timers.find? (fun t => t.id = tid) with
  | none => simp only [hf]; exact h
  | some t =>
    have hknone : ¬ s.apiKey = none := by
      intro hn
      have h5 := h.2.2 hn
      rw [h5.2.2.2] at hf
      simp at hf
    have htinv := clearTimer_timerInv h.2.1 tid
    simp only [hf]
    cases oc with
    | ok entries =>
      refine ⟨⟨Or.inl rfl, ?_⟩, ⟨htinv.1, fun t' ht' => htinv.2 t' ht'⟩, fun hn => absurd hn hknone⟩
      intro hop
      simp only [decide_eq_true_eq] at hop
      exact List.ne_nil_of_length_pos hop
    | fail =>
      exact ⟨⟨Or.inl rfl, by simp⟩, ⟨htinv.1, fun t' ht' => htinv.2 t' ht'⟩,
        fun hn => absurd hn hknone⟩

theorem pick_inv {s : AppState} (h : Inv s) (sug : Suggestion) (oc : FetchOutcome) :
    Inv (pick s sug oc).1 := by
  refine ⟨⟨Or.inl rfl, by intro ho; simp [pick] at ho⟩,
    ⟨h.2.1.1, fun t ht => h.2.1.2 t ht⟩, ?_⟩
  intro hn
  have h5 := h.2.2 hn
  exact ⟨h5.1, rfl, rfl, h5.2.2.2⟩

theorem onKeyDown_inv {s : AppState} (h : Inv s) (k : Key) (oc : FetchOutcome) :
    Inv (onKeyDown s k oc).1 := by
  unfold onKeyDown
  split
  · rename_i hc
    refine ⟨⟨?_, fun ho => h.1.2 hc.1⟩, ⟨h.2.1.1, fun t ht => h.2.1.2 t ht⟩, ?_⟩
    · have hsug := h.1.1
      have hne : s.suggestions ≠ [] := h.1.2 hc.1
      have hlen : 0 < s.suggestions.length := List.length_pos.mpr hne
      dsimp only
      rcases hsug with hsug | hsug <;> split_ifs <;> omega
    · intro hn
      have h5 := h.2.2 hn
      rw [h5.2.1] at hc
      exact absurd hc.1 (by simp)
  · split
    · split
      · exact pick_inv h _ oc
      · exact ⟨⟨h.1.1, h.1.2⟩, ⟨h.2.1.1, fun t ht => h.2.1.2 t ht⟩,
          fun hn => h.2.2 hn⟩
    · split
      · refine ⟨⟨Or.inl rfl, by simp⟩, ⟨h.2.1.1, fun t ht => h.2.1.2 t ht⟩, ?_⟩
        intro hn
        have h5 := h.2.2 hn
        exact ⟨h5.1, rfl, rfl, h5.2.2.2⟩
      · exact h

theorem mouseEnter_inv {s : AppState} (h : Inv s) (i : Nat) :
    Inv (mouseEnter s i) := by
  unfold mouseEnter
  split
  · rename_i hc
    refine ⟨⟨Or.inr ⟨?_, ?_⟩, fun ho => h.1.2 hc.1⟩,
      ⟨h.2.1.1, fun t ht => h.2.1.2 t ht⟩, ?_⟩
    · show (0 : Int) ≤ (i : Int)
      omega
    · show (i : Int) < (s.suggestions.length : Int)
      exact_mod_cast hc.2
    intro hn
    have h5 := h.2.2 hn
    rw [h5.2.1] at hc
    exact absurd hc.1 (by simp)
  · exact h

theorem mouseLeave_inv {s : AppState} (h : Inv s) : Inv (mouseLeave s) := by
  refine ⟨⟨Or.inl rfl, fun ho => h.1.2 ho⟩, ⟨h.2.1.1, fun t ht => h.2.1.2 t ht⟩, ?_⟩
  intro hn
  have h5 := h.2.2 hn
  exact ⟨h5.1, h5.2.1, rfl, h5.2.2.2⟩

theorem mouseDownOption_inv {s : AppState} (h : Inv s) (i : Nat) (oc : FetchOutcome) :
    Inv (mouseDownOption s i oc).1 := by
  unfold mouseDownOption
  split
  · exact pick_inv h _ oc
  · exact h

theorem docClick_inv {s : AppState} (h : Inv s) (b : Bool) : Inv (docClick s b) := by
  unfold docClick
  split
  · exact h
  · refine ⟨⟨h.1.1, by simp⟩, ⟨h.2.1.1, fun t ht => h.2.1.2 t ht⟩, ?_⟩
    intro hn
    have h5 := h.2.2 hn
    exact ⟨h5.1, rfl, h5.2.2.1, h5.2.2.2⟩

theorem buttonSearch_inv {s : AppState} (h : Inv s) (oc : FetchOutcome) :
    Inv (buttonSearch s oc).1 := by
  unfold buttonSearch
  split
  · exact h
  · exact ⟨⟨h.1.1, h.1.2⟩, ⟨h.2.1.1, fun t ht => h.2.1.2 t ht⟩, fun hn => h.2.2 hn⟩

/-- Every event handler preserves the reachability invariants. -/
theorem step_inv {s : AppState} (h : Inv s) (e : Event) : Inv (step s e).1 := by
  cases e with
  | input v => exact onChange_inv h v
  | fire tid oc => exact fireTimer_inv h tid oc
  | key k oc => exact onKeyDown_inv h k oc
  | hoverEnter i => exact mouseEnter_inv h i
  | hoverLeave => exact mouseLeave_inv h
  | clickOption i oc => exact mouseDownOption_inv h i oc
  | outside b => exact docClick_inv h b
  | searchBtn oc => exact buttonSearch_inv h oc

theorem init_inv (apiKey : Option String) : Inv (init apiKey) := by
  refine ⟨⟨Or.inl rfl, by simp [init]⟩, ⟨by simp [init], by simp [init]⟩, ?_⟩
  intro _
  exact ⟨rfl, rfl, rfl, rfl⟩

theorem run_inv {s : AppState} (h : Inv s) (es : List Event) : Inv (run s es).1 := by
  induction es generalizing s with
  | nil => exact h
  | cons e es ih => exact ih (step_inv h e)

/-- Every reachable state satisfies all the invariants. -/
theorem reachable_inv {apiKey : Option String} {s : AppState}
    (h : Reachable apiKey s) : Inv s := by
  obtain ⟨es, hes⟩ := h
  rw [← hes]
  exact run_inv (init_inv apiKey) es

theorem run_nil (s : AppState) : run s [] = (s, []) := rfl

theorem run_cons (s : AppState) (e : Event) (es : List Event) :
    run s (e :: es) =
      ((run (step s e).1 es).1, (step s e).2 ++ (run (step s e).1 es).2) := rfl

theorem run_append : ∀ (l₁ l₂ : List Event) (s : AppState),
    run s (l₁ ++ l₂) =
      ((run (run s l₁).1 l₂).1, (run s l₁).2 ++ (run (run s l₁).1 l₂).2) := by
  intro l₁
  induction l₁ with
  | nil => intro l₂ s; simp [run_nil, run_cons]
  | cons e es ih =>
    intro l₂ s
    simp [run_cons, ih, List.append_assoc]

/-- Normal form for a keystroke when the key is configured and the timer
system is sane. -/
theorem onChange_eq {s : AppState} {k : String} (v : String)
    (hk : s.apiKey = some k) (hinv : TimerInv s) :
    onChange s v =
      if v = "" ∨ (jsTrim v).length < 2 then
        { s with city := v, suggestions := [], isOpen := false, highlight := -1,
                 timers := [] }
      else
        { s with city := v, timers := [⟨s.nextId, v⟩], debounceRef := some s.nextId,
                 nextId := s.nextId + 1 } := by
  unfold onChange
  rw [lookup_eq v (show ({ s with city := v } : AppState).apiKey = some k from hk)
    ⟨hinv.1, hinv.2⟩]

/-- What one keystroke does to the timer system: key and counter are
kept sane, and the armed timers are exactly the single fresh one (long
query) or nothing (short query). -/
theorem onChange_facts {s : AppState} {k : String} (v : String)
    (hk : s.apiKey = some k) (hinv : TimerInv s) :
    (onChange s v).apiKey = some k ∧ TimerInv (onChange s v) ∧
    s.nextId ≤ (onChange s v).nextId ∧
    ((onChange s v).timers = [] ∨ (onChange s v).timers = [⟨s.nextId, v⟩]) := by
  rw [onChange_eq v hk hinv]
  split
  · exact ⟨hk, ⟨by simp, by simp⟩, le_refl _, Or.inl rfl⟩
  · refine ⟨hk, ⟨by simp, ?_⟩, Nat.le_succ _, Or.inr rfl⟩
    intro t ht
    simp only [List.mem_singleton] at ht
    subst ht
    exact ⟨rfl, Nat.lt_succ_self _⟩

theorem run_inputs_aux (qs : List String) : ∀ (s : AppState) (k : String),
    s.apiKey = some k → TimerInv s →
    (run s (qs.map Event.input)).1.apiKey = some k ∧
    TimerInv (run s (qs.map Event.input)).1 ∧
    s.nextId ≤ (run s (qs.map Event.input)).1.nextId := by
  induction qs with
  | nil => intro s k hk hinv; exact ⟨hk, hinv, le_refl _⟩
  | cons v vs ih =>
    intro s k hk hinv
    obtain ⟨hk1, hinv1, hnid1, _⟩ := onChange_facts v hk hinv
    obtain ⟨hk2, hinv2, hnid2⟩ := ih (onChange s v) k hk1 hinv1
    exact ⟨hk2, hinv2, Nat.le_trans hnid1 hnid2⟩

/-- Keystrokes themselves perform no effects: in particular no network
call is issued at input time. -/
theorem run_inputs_effs (qs : List String) : ∀ s : AppState,
    (run s (qs.map Event.input)).2 = [] := by
  induction qs with
  | nil => intro s; rfl
  | cons v vs ih =>
    intro s
    simp only [List.map_cons, run_cons, step]
    rw [ih]
    rfl

theorem fireTimer_effs_nil {s : AppState} (h : s.timers = []) (tid : Nat)
    (oc : GeoOutcome) : (fireTimer s tid oc).2 = [] := by
  unfold fireTimer
  rw [h]
  rfl

theorem fireTimer_effs_single {s : AppState} {t : Timer} (h : s.timers = [t])
    (tid : Nat) (oc : GeoOutcome) :
    (fireTimer s tid oc).2 = [] ∨ (fireTimer s tid oc).2 = [Eff.geoCall ⟨t.q, 6⟩] := by
  unfold fireTimer
  cases hf : s.timers.find? (fun x => x.id = tid) with
  | none => exact Or.inl rfl
  | some t' =>
    have ht' : t' = t := by
      have hm := List.mem_of_find?_eq_some hf
      rw [h] at hm
      simpa using hm
    subst ht'
    cases oc with
    | ok entries => exact Or.inr rfl
    | fail => exact Or.inr rfl

/-- The weather requests contained in an effect trace. -/
def weatherCalls (effs : List Eff) : List WeatherRequest :=
  effs.filterMap fun e => match e with
    | Eff.weatherCall r => some r
    | _ => none

/-- The geocoding requests contained in an effect trace. -/
def geoCalls (effs : List Eff) : List GeoRequest :=
  effs.filterMap fun e => match e with
    | Eff.geoCall r => some r
    | _ => none

/-- All network calls (weather or geocoding) in an effect trace. -/
def netCalls (effs : List Eff) : List Eff :=
  effs.filter fun e => match e with
    | Eff.weatherCall _ => true
    | Eff.geoCall _ => true
    | _ => false

/-- C2: with no API key configured, every weather-search invocation
performs no network call at all, records the exact error message
"Missing API key", and (when not already in flight) leaves the derived
status `Failed "Missing API key"`. -/
theorem missing_key_short_circuit (q : Option String) (city : String)
    (oc : FetchOutcome) (st : WState) :
    netCalls (fetchWeather none q city oc) = [] ∧
    (applyEffs st (fetchWeather none q city oc)).error = "Missing API key" ∧
    (st.loading = false →
      status (applyEffs st (fetchWeather none q city oc)) =
        RequestStatus.failed "Missing API key") := by
  refine ⟨rfl, rfl, ?_⟩
  intro hld
  simp [fetchWeather, applyEffs, applyEff, status, hld]

/-- C2 witness: a concrete missing-key search, starting from a state
already displaying a result. -/
theorem missing_key_short_circuit_witness :
    (⟨some ⟨"old"⟩, "", false⟩ : WState).loading = false ∧
    status (applyEffs ⟨some ⟨"old"⟩, "", false⟩
        (fetchWeather none (some "Paris") "X" (FetchOutcome.ok ⟨"r"⟩))) =
      RequestStatus.failed "Missing API key" :=
  ⟨rfl, (missing_key_short_circuit (some "Paris") "X" (FetchOutcome.ok ⟨"r"⟩)
    ⟨some ⟨"old"⟩, "", false⟩).2.2 rfl⟩

/-- C7: with the key configured, a search whose explicit query trims to
the empty string issues exactly one weather request, for the default
place "Algiers". -/
theorem empty_query_uses_default (k : String) (qt city : String)
    (oc : FetchOutcome) (hq : jsTrim qt = "") :
    weatherCalls (fetchWeather (some k) (some qt) city oc) =
      [⟨"Algiers", "metric"⟩] := by
  cases oc <;> simp [fetchWeather, weatherCalls, hq]

/-- Witness for C7: `search("   ")` issues one request for "Algiers". -/
theorem empty_query_uses_default_witness :
    jsTrim "   " = "" ∧
    weatherCalls (fetchWeather (some "k") (some "   ") "X"
        (FetchOutcome.ok ⟨"r"⟩)) = [⟨"Algiers", "metric"⟩] :=
  ⟨by decide, empty_query_uses_default "k" "   " "X" (FetchOutcome.ok ⟨"r"⟩) (by decide)⟩

/-- C10: every weather-search invocation clears the error and the
previous result as its first two steps, before the credential check and
before entering Loading; hence a missing-key invocation never enters
Loading, discards the previous result, and cannot leave status `Ready`. -/
theorem clears_before_credential_check (key : Option String) (q : Option String)
    (city : String) (oc : FetchOutcome) (st : WState) :
    (∃ rest, fetchWeather key q city oc =
      Eff.setError "" :: Eff.setData none :: rest) ∧
    Eff.setLoading true ∉ fetchWeather none q city oc ∧
    (applyEffs st (fetchWeather none q city oc)).data = none ∧
    (applyEffs st (fetchWeather none q city oc)).error = "Missing API key" ∧
    (∀ r, status (applyEffs st (fetchWeather none q city oc)) ≠
      RequestStatus.ready r) := by
  refine ⟨⟨_, rfl⟩, by simp [fetchWeather], rfl, rfl, ?_⟩
  intro r
  simp [fetchWeather, applyEffs, applyEff, status]
  split <;> simp

/-- C8: a firing debounce timer issues at most one geocoding request and
always with `limit = 6`; on success the suggestion list is exactly the
raw entries mapped entry-wise (label = name[, state][, country], value =
name[,country]); in particular `{name:"Paris", country:"FR"}` maps to
`{label:"Paris, FR", value:"Paris,FR"}`. -/
theorem geocode_request_and_mapping :
    (∀ (s : AppState) (tid : Nat) (oc : GeoOutcome),
      (fireTimer s tid oc).2 = [] ∨
      ∃ q, (fireTimer s tid oc).2 = [Eff.geoCall ⟨q, 6⟩]) ∧
    (∀ e : GeoEntry, toSuggestion e =
      ⟨e.name ++ (if e.state = "" then "" else ", " ++ e.state)
        ++ (if e.country = "" then "" else ", " ++ e.country),
       e.name ++ (if e.country = "" then "" else "," ++ e.country)⟩) ∧
    toSuggestion ⟨"Paris", "", "FR"⟩ = ⟨"Paris, FR", "Paris,FR"⟩ ∧
    (∀ (s : AppState) (tid : Nat) (entries : List GeoEntry),
      (fireTimer s tid (GeoOutcome.ok entries)).2 = [] ∨
      (fireTimer s tid (GeoOutcome.ok entries)).1.suggestions =
        entries.map toSuggestion) := by
  refine ⟨?_, ?_, by decide, ?_⟩
  · intro s tid oc
    unfold fireTimer
    cases hf : s.timers.find? (fun t => t.id = tid) with
    | none => exact Or.inl rfl
    | some t => cases oc <;> exact Or.inr ⟨t.q, rfl⟩
  · intro e
    rfl
  · intro s tid entries
    unfold fireTimer
    cases hf : s.timers.find? (fun t => t.id = tid) with
    | none => exact Or.inl rfl
    | some t => exact Or.inr rfl

/-- Witness for C8: the Paris entry round-trips concretely. -/
theorem geocode_request_and_mapping_witness :
    toSuggestion ⟨"Paris", "", "FR"⟩ = ⟨"Paris, FR", "Paris,FR"⟩ :=
  geocode_request_and_mapping.2.2.1

/-- Witness for C10: a concrete missing-key invocation discards the
displayed result and does not end Ready. -/
theorem clears_before_credential_check_witness :
    (applyEffs ⟨some ⟨"old"⟩, "", false⟩
        (fetchWeather none (some "Nice") "Y" (FetchOutcome.ok ⟨"r"⟩))).data = none ∧
    status (applyEffs ⟨some ⟨"old"⟩, "", false⟩
        (fetchWeather none (some "Nice") "Y" (FetchOutcome.ok ⟨"r"⟩))) ≠
      RequestStatus.ready ⟨"old"⟩ :=
  ⟨(clears_before_credential_check none (some "Nice") "Y" (FetchOutcome.ok ⟨"r"⟩)
      ⟨some ⟨"old"⟩, "", false⟩).2.2.1,
   (clears_before_credential_check none (some "Nice") "Y" (FetchOutcome.ok ⟨"r"⟩)
      ⟨some ⟨"old"⟩, "", false⟩).2.2.2.2 ⟨"old"⟩⟩

/-- C6: when an armed debounce timer fires and the geocoding lookup
fails (transport error or non-success status both land in the same
catch), the failure is silent: the suggestion state is cleared, the
WeatherQuery state is untouched (its derived status in particular is
never set to Failed by this path), and the trace sets no error. -/
theorem geo_failure_is_silent (s : AppState) (tid : Nat) (t : Timer)
    (hf : s.timers.find? (fun x => x.id = tid) = some t) :
    (fireTimer s tid GeoOutcome.fail).1.suggestions = [] ∧
    (fireTimer s tid GeoOutcome.fail).1.isOpen = false ∧
    (fireTimer s tid GeoOutcome.fail).1.highlight = -1 ∧
    (fireTimer s tid GeoOutcome.fail).1.weather = s.weather ∧
    status (fireTimer s tid GeoOutcome.fail).1.weather = status s.weather ∧
    (∀ m, Eff.setError m ∉ (fireTimer s tid GeoOutcome.fail).2) := by
  unfold fireTimer
  rw [hf]
  exact ⟨rfl, rfl, rfl, rfl, rfl, by simp⟩

/-- A concrete state with one armed debounce timer, used to exercise the
timer-firing paths on explicit inputs. -/
def armedState : AppState :=
  { init (some "k") with timers := [⟨0, "Par"⟩], debounceRef := some 0, nextId := 1 }

/-- C6 witness: a concrete armed timer whose lookup fails. -/
theorem geo_failure_is_silent_witness :
    armedState.timers.find? (fun x => x.id = 0) = some ⟨0, "Par"⟩ ∧
    status (fireTimer armedState 0 GeoOutcome.fail).1.weather =
      status armedState.weather :=
  ⟨by decide, (geo_failure_is_silent armedState 0 ⟨0, "Par"⟩ (by decide)).2.2.2.2.1⟩

/-- C5: while the dropdown is open over `k > 0` items, ArrowDown and
ArrowUp move the highlight cyclically: ArrowDown maps -1 and k-1 to 0
and otherwise increments; ArrowUp maps -1 and 0 to k-1 and otherwise
decrements. -/
theorem cyclic_arrow_navigation (s : AppState) (oc : FetchOutcome)
    (hop : s.isOpen = true) (hk : 0 < s.suggestions.length)
    (hh : s.highlight = -1 ∨
      (0 ≤ s.highlight ∧ s.highlight < (s.suggestions.length : Int))) :
    ((onKeyDown s Key.arrowDown oc).1.highlight =
      if s.highlight = -1 ∨ s.highlight = (s.suggestions.length : Int) - 1 then 0
      else s.highlight + 1) ∧
    ((onKeyDown s Key.arrowUp oc).1.highlight =
      if s.highlight = -1 ∨ s.highlight = 0 then (s.suggestions.length : Int) - 1
      else s.highlight - 1) := by
  constructor
  · unfold onKeyDown
    rw [if_pos (show (s.isOpen = true) ∧
      (Key.arrowDown = Key.arrowDown ∨ Key.arrowDown = Key.arrowUp) from
        ⟨hop, Or.inl rfl⟩)]
    dsimp only
    split_ifs <;> first | omega | simp_all
  · unfold onKeyDown
    rw [if_pos (show (s.isOpen = true) ∧
      (Key.arrowUp = Key.arrowDown ∨ Key.arrowUp = Key.arrowUp) from
        ⟨hop, Or.inr rfl⟩)]
    dsimp only
    split_ifs <;> first | omega | simp_all

/-- A concrete open dropdown over three suggestions. -/
def openState3 : AppState :=
  { init (some "k") with
    suggestions := [⟨"A", "A"⟩, ⟨"B", "B"⟩, ⟨"C", "C"⟩]
    isOpen := true
    highlight := 2 }

/-- C5 witness: from the last index, ArrowDown wraps to 0 and ArrowUp
decrements. -/
theorem cyclic_arrow_navigation_witness :
    openState3.isOpen = true ∧ 0 < openState3.suggestions.length ∧
    (onKeyDown openState3 Key.arrowDown (FetchOutcome.ok ⟨"r"⟩)).1.highlight = 0 ∧
    (onKeyDown openState3 Key.arrowUp (FetchOutcome.ok ⟨"r"⟩)).1.highlight = 1 := by
  have h := cyclic_arrow_navigation openState3 (FetchOutcome.ok ⟨"r"⟩) rfl
    (by decide) (by decide)
  refine ⟨rfl, by decide, ?_, ?_⟩
  · rw [h.1]; decide
  · rw [h.2]; decide

/-- C9: on Enter, if the dropdown is open and the highlight indexes an
existing suggestion, that suggestion is confirmed via `pick` (query set
to its value, dropdown closed, highlight reset, weather search invoked
with the suggestion's value); otherwise the weather search is invoked
with no argument, i.e. with the current raw query text. -/
theorem enter_confirms_or_searches (s : AppState) (oc : FetchOutcome) :
    (∀ sug : Suggestion, s.isOpen = true → 0 ≤ s.highlight →
      s.suggestions[s.highlight.toNat]? = some sug →
      ((onKeyDown s Key.enter oc).1.city = sug.value ∧
       (onKeyDown s Key.enter oc).1.isOpen = false ∧
       (onKeyDown s Key.enter oc).1.highlight = -1 ∧
       (onKeyDown s Key.enter oc).2 =
         fetchWeather s.apiKey (some sug.value) s.city oc)) ∧
    (¬(s.isOpen = true ∧ 0 ≤ s.highlight ∧
        s.highlight < (s.suggestions.length : Int)) →
      (onKeyDown s Key.enter oc).2 = fetchWeather s.apiKey none s.city oc) := by
  have hno : ¬((s.isOpen = true) ∧
      (Key.enter = Key.arrowDown ∨ Key.enter = Key.arrowUp)) := by simp
  constructor
  · intro sug hop hh hsug
    unfold onKeyDown
    rw [if_neg hno, if_pos rfl,
      if_pos (show (s.isOpen = true) ∧ 0 ≤ s.highlight from ⟨hop, hh⟩), hsug]
    exact ⟨rfl, rfl, rfl, rfl⟩
  · intro hcond
    unfold onKeyDown
    rw [if_neg hno, if_pos rfl]
    have hsc : (if s.isOpen ∧ 0 ≤ s.highlight then
        s.suggestions[s.highlight.toNat]? else none) = none := by
      by_cases h1 : (s.isOpen = true) ∧ 0 ≤ s.highlight
      · rw [if_pos h1]
        apply List.getElem?_eq_none
        have h2 : ¬ s.highlight < (s.suggestions.length : Int) :=
          fun hlt => hcond ⟨h1.1, h1.2, hlt⟩
        omega
      · rw [if_neg h1]
    rw [hsc]

/-- A concrete open dropdown with one suggestion highlighted. -/
def openState1 : AppState :=
  { init (some "k") with
    suggestions := [⟨"Paris, FR", "Paris,FR"⟩]
    isOpen := true
    highlight := 0 }

/-- C9 witness: Enter with a highlighted suggestion confirms it; Enter
on the closed initial state searches the raw text. -/
theorem enter_confirms_or_searches_witness :
    ((onKeyDown openState1 Key.enter (FetchOutcome.ok ⟨"r"⟩)).1.city = "Paris,FR") ∧
    ((onKeyDown (init (some "k")) Key.enter (FetchOutcome.ok ⟨"r"⟩)).2 =
      fetchWeather (some "k") none "Algiers" (FetchOutcome.ok ⟨"r"⟩)) :=
  ⟨((enter_confirms_or_searches openState1 (FetchOutcome.ok ⟨"r"⟩)).1
      ⟨"Paris, FR", "Paris,FR"⟩ rfl (by decide) (by decide)).1,
   (enter_confirms_or_searches (init (some "k")) (FetchOutcome.ok ⟨"r"⟩)).2
      (by decide)⟩

theorem lookup_keyNone {s : AppState} (hk : s.apiKey = none) (q : String) :
    lookup s q = s := by
  unfold lookup
  rw [hk]

/-- C4: from any reachable state, a keystroke whose text trims to fewer
than 2 characters issues no network effect, leaves no armed timer
(cancelling any pending scheduled lookup), and leaves the suggestion
state cleared: no items, dropdown closed, highlight -1. -/
theorem short_input_clears (apiKey : Option String) (s : AppState) (v : String)
    (hr : Reachable apiKey s) (hv : (jsTrim v).length < 2) :
    (onChange s v).suggestions = [] ∧ (onChange s v).isOpen = false ∧
    (onChange s v).highlight = -1 ∧ (onChange s v).timers = [] ∧
    (step s (Event.input v)).2 = [] := by
  have hinv := reachable_inv hr
  cases hk : s.apiKey with
  | some k =>
    have he := onChange_eq v hk hinv.2.1
    rw [if_pos (Or.inr hv)] at he
    exact ⟨by rw [he], by rw [he], by rw [he], by rw [he], rfl⟩
  | none =>
    have h5 := hinv.2.2 hk
    have he : onChange s v = { s with city := v } :=
      lookup_keyNone (show ({ s with city := v } : AppState).apiKey = none from hk) v
    exact ⟨by rw [he]; exact h5.1, by rw [he]; exact h5.2.1,
      by rw [he]; exact h5.2.2.1, by rw [he]; exact h5.2.2.2, rfl⟩

/-- C4 witness: typing "a" into the freshly mounted component. -/
theorem short_input_clears_witness :
    (jsTrim "a").length < 2 ∧
    (onChange (init (some "k")) "a").suggestions = [] ∧
    (onChange (init (some "k")) "a").isOpen = false ∧
    (onChange (init (some "k")) "a").highlight = -1 ∧
    (onChange (init (some "k")) "a").timers = [] ∧
    (step (init (some "k")) (Event.input "a")).2 = [] :=
  ⟨by decide, short_input_clears (some "k") (init (some "k")) "a" ⟨[], rfl⟩ (by decide)⟩

/-- C1: at every reachable state, the highlight is -1 or a valid index
into the items and the dropdown is open only when items are non-empty;
moreover every operation (keystroke, scheduled lookup completion on
success or failure, the four keys, pick via click, mouse hover in/out,
outside-click dismissal) preserves this from such a state. -/
theorem suggestion_state_invariant (apiKey : Option String) (s : AppState)
    (hr : Reachable apiKey s) :
    ((s.highlight = -1 ∨
        (0 ≤ s.highlight ∧ s.highlight < (s.suggestions.length : Int))) ∧
      (s.isOpen = true → s.suggestions ≠ [])) ∧
    ∀ e : Event,
      ((step s e).1.highlight = -1 ∨
        (0 ≤ (step s e).1.highlight ∧
          (step s e).1.highlight < ((step s e).1.suggestions.length : Int))) ∧
      ((step s e).1.isOpen = true → (step s e).1.suggestions ≠ []) := by
  have hinv := reachable_inv hr
  refine ⟨⟨hinv.1.1, hinv.1.2⟩, ?_⟩
  intro e
  have h2 := step_inv hinv e
  exact ⟨h2.1.1, h2.1.2⟩

/-- A short interaction: type "Par", let the lookup complete with two
hits, ArrowDown, then hover the second row. -/
def demoEvents : List Event :=
  [Event.input "Par",
   Event.fire 0 (GeoOutcome.ok [⟨"Paris", "", "FR"⟩, ⟨"Parma", "", "IT"⟩]),
   Event.key Key.arrowDown (FetchOutcome.ok ⟨"r"⟩),
   Event.hoverEnter 1]

/-- C1 witness: the invariant holds at the end of a concrete
interaction. -/
theorem suggestion_state_invariant_witness :
    Reachable (some "k") (run (init (some "k")) demoEvents).1 ∧
    (((run (init (some "k")) demoEvents).1.highlight = -1 ∨
        (0 ≤ (run (init (some "k")) demoEvents).1.highlight ∧
          (run (init (some "k")) demoEvents).1.highlight <
            ((run (init (some "k")) demoEvents).1.suggestions.length : Int))) ∧
      ((run (init (some "k")) demoEvents).1.isOpen = true →
        (run (init (some "k")) demoEvents).1.suggestions ≠ [])) :=
  ⟨⟨demoEvents, rfl⟩,
   (suggestion_state_invariant (some "k") (run (init (some "k")) demoEvents).1
     ⟨demoEvents, rfl⟩).1⟩

/-- C3: for a burst of keystrokes ending in `v` with no intervening
timer expiry, keystrokes themselves perform no effects, at most one
scheduled lookup is pending after every prefix of the burst, every timer
still armed after the burst captured the last keystroke's text, firing
any timer after the burst issues at most one geocoding call and only
with the last text, and no timer armed before the burst survives it. -/
theorem debounce_coalescing (k : String) (s : AppState) (qs : List String)
    (v : String) (hk : s.apiKey = some k) (hinv : TimerInv s) :
    (run s ((qs ++ [v]).map Event.input)).2 = [] ∧
    (∀ ps rest : List String, qs ++ [v] = ps ++ rest →
      (run s (ps.map Event.input)).1.timers.length ≤ 1) ∧
    (∀ t ∈ (run s ((qs ++ [v]).map Event.input)).1.timers, t.q = v) ∧
    (∀ (tid : Nat) (oc : GeoOutcome),
      (fireTimer (run s ((qs ++ [v]).map Event.input)).1 tid oc).2 = [] ∨
      (fireTimer (run s ((qs ++ [v]).map Event.input)).1 tid oc).2 =
        [Eff.geoCall ⟨v, 6⟩]) ∧
    (∀ t ∈ s.timers, t ∉ (run s ((qs ++ [v]).map Event.input)).1.timers) := by
  obtain ⟨hk1, hinv1, hnid1⟩ := run_inputs_aux qs s k hk hinv
  obtain ⟨hk2, hinv2, hnid2, hsh⟩ := onChange_facts v hk1 hinv1
  have h1 : (run s ((qs ++ [v]).map Event.input)).1 =
      onChange (run s (qs.map Event.input)).1 v := by
    rw [List.map_append, run_append]
    rfl
  refine ⟨run_inputs_effs (qs ++ [v]) s, ?_, ?_, ?_, ?_⟩
  · intro ps rest _
    exact (run_inputs_aux ps s k hk hinv).2.1.1
  · rw [h1]
    rcases hsh with hsh | hsh
    · rw [hsh]
      intro t ht
      cases ht
    · rw [hsh]
      intro t ht
      simp only [List.mem_singleton] at ht
      subst ht
      rfl
  · intro tid oc
    rw [h1]
    rcases hsh with hsh | hsh
    · exact Or.inl (fireTimer_effs_nil hsh tid oc)
    · exact fireTimer_effs_single hsh tid oc
  · intro t ht
    rw [h1]
    rcases hsh with hsh | hsh
    · rw [hsh]
      exact List.not_mem_nil t
    · rw [hsh]
      have hlt : t.id < s.nextId := (hinv.2 t ht).2
      intro hmem
      simp only [List.mem_singleton] at hmem
      rw [hmem] at hlt
      simp only at hlt
      omega

/-- C3 witness: three keystrokes inside the quiet period leave exactly
one armed timer, capturing only the last text. -/
theorem debounce_coalescing_witness :
    (init (some "k")).apiKey = some "k" ∧
    (run (init (some "k")) ((["P", "Pa"] ++ ["Par"]).map Event.input)).2 = [] ∧
    (∀ t ∈ (run (init (some "k")) ((["P", "Pa"] ++ ["Par"]).map Event.input)).1.timers,
      t.q = "Par") := by
  have h := debounce_coalescing "k" (init (some "k")) ["P", "Pa"] "Par" rfl
    ⟨by decide, by simp [init]⟩
  exact ⟨rfl, h.1, h.2.2.1⟩

end Weatherly
